import Mathlib

/-!
Shallow embedding of the bad-apple video pipeline, sources src/main.py and
src/ffmpeg.py, together with the pixel arithmetic of the imaging-library
(PIL) calls the per-frame unit of work makes.

Conventions of the embedding:
- 8-bit pixel channels are Nat values intended to lie in 0..255; images are
  rectangular lists of rows.
- PIL Image.composite(image1, image2, mask) is image2.copy() pasted with
  image1 under the L-mode mask; per channel the C implementation computes
  BLEND(mask, base, overlay) = MULDIV255(base, 255-mask) + MULDIV255(overlay, mask)
  with MULDIV255(a, b) = ((t >> 8) + t) >> 8 for t = a*b + 128.
- Fallible Python code is mirrored with Except; an uncaught exception is an
  error value that propagates.
- subprocess invocations are mirrored as records of the argv and options the
  code passes, evaluated against an environment giving each call's outcome.
- Probe stdout is carried as List Char; str.strip, str.split and int() are
  implemented on characters (underscore digit grouping and non-ASCII digits
  of Python's int() are omitted: no claim depends on them).
-/

/-- PIL MULDIV255(a, b): tmp = a*b + 128; ((tmp >> 8) + tmp) >> 8 — the 8-bit
approximate division by 255 used by paste with an L mask. -/
def muldiv255 (a b : Nat) : Nat :=
  ((a * b + 128) / 256 + (a * b + 128)) / 256

/-- PIL BLEND(mask, in1, in2) with in1 the base (image2) channel and in2 the
pasted (image1) channel. -/
def blend (m bp wp : Nat) : Nat :=
  muldiv255 bp (255 - m) + muldiv255 wp m

/-- An 8-bit RGB pixel; each channel intended in 0..255. -/
structure RGB where
  r : Nat
  g : Nat
  b : Nat
deriving DecidableEq, Repr

/-- Channelwise BLEND of the pasted pixel wp over the base pixel bp. -/
def blendRGB (m : Nat) (bp wp : RGB) : RGB :=
  ⟨blend m bp.r wp.r, blend m bp.g wp.g, blend m bp.b wp.b⟩

/-- A grayscale (mode L) raster, rows of 8-bit values. -/
abbrev ImageL := List (List Nat)

/-- An RGB raster, rows of pixels. -/
abbrev ImageRGB := List (List RGB)

/-- Pointwise combination of three rasters of equal shape. -/
def zipWith3 (f : α → β → γ → δ) : List α → List β → List γ → List δ
  | a :: as, b :: bs, c :: cs => f a b c :: zipWith3 f as bs cs
  | _, _, _ => []

/-- PIL Image.composite(image1, image2, mask): per pixel, BLEND of the image1
pixel over the image2 pixel weighted by the mask value. -/
def composite (image1 image2 : ImageRGB) (mask : ImageL) : ImageRGB :=
  zipWith3 (fun row1 row2 rowM => zipWith3 (fun p1 p2 m => blendRGB m p2 p1) row1 row2 rowM)
    image1 image2 mask

/-- PIL convert to L from RGB, ITU-R 601-2: (r*19595 + g*38470 + b*7471 + 32768) >> 16. -/
def rgbToL (p : RGB) : Nat :=
  (p.r * 19595 + p.g * 38470 + p.b * 7471 + 32768) / 65536

/-- Contents of one frame file on disk: a readable grayscale image (as the
extractor wrote it), a composited RGB image (as process_single_frame writes it
back), or a file the image codec cannot read. -/
inductive FrameData where
  | gray (img : ImageL)
  | rgbOut (img : ImageRGB)
  | corrupt (msg : String)
deriving DecidableEq

/-- Image.open(path).convert('L') on the frame file's contents. -/
def convertL : FrameData → Except String ImageL
  | .gray img => .ok img
  | .rgbOut img => .ok (img.map (List.map rgbToL))
  | .corrupt msg => .error msg

/-- Size agreement demanded by PIL composite/paste with a mask. -/
def sameShape (a : List (List α)) (b : List (List β)) : Bool :=
  a.length == b.length && (List.zip a b).all fun rr => rr.1.length == rr.2.length

/-- main.process_single_frame, on file contents: open the frame as an L mask,
Image.composite(white, black, mask), save over the same path. A raised
exception (unreadable file, size mismatch) is the error value. -/
def process_single_frame (whiteImg blackImg : ImageRGB) (d : FrameData) :
    Except String FrameData :=
  match convertL d with
  | .error e => .error e
  | .ok mask =>
    if sameShape mask whiteImg && sameShape mask blackImg then
      .ok (.rgbOut (composite whiteImg blackImg mask))
    else .error "images do not match"

/-- first_frame.size of a frame file: (width, height). -/
def frameSize : FrameData → Except String (Nat × Nat)
  | .gray img => .ok ((img.headD []).length, img.length)
  | .rgbOut img => .ok ((img.headD []).length, img.length)
  | .corrupt msg => .error msg

/-- Observable outcome of a process_frames run: final contents of each frame
file, the paths written, and the console messages (diagnostics and per-frame
error reports). -/
structure CompositorRun where
  files : List (String × FrameData)
  writes : List String
  messages : List String
deriving DecidableEq

/-- main.process_frames. The overlay images arrive already opened and converted
to RGB; files is the sorted directory listing as (path, contents) pairs.
resize stands for PIL Image.resize, whose pixel output no claim constrains.
Mirrors the source: empty listing returns with a diagnostic only; the first
frame is opened for its size (an unreadable first frame raises out of the
function); each frame then becomes one pool task whose exception is caught at
the fan-in and reported, leaving that file unchanged. -/
def process_frames (resize : ImageRGB → Nat → Nat → ImageRGB)
    (blackImg whiteImg : ImageRGB) (files : List (String × FrameData)) :
    Except String CompositorRun :=
  match files with
  | [] => .ok ⟨[], [], ["No frames found to process."]⟩
  | (p₀, d₀) :: rest =>
    match frameSize d₀ with
    | .error e => .error e
    | .ok wh =>
      let results := ((p₀, d₀) :: rest).map fun pd =>
        match process_single_frame (resize whiteImg wh.1 wh.2) (resize blackImg wh.1 wh.2) pd.2 with
        | .ok d' => ((pd.1, d'), some pd.1, (none : Option String))
        | .error e => ((pd.1, pd.2), (none : Option String),
                       some ("Error processing a frame: " ++ e))
      .ok ⟨results.map (·.1), results.filterMap (·.2.1),
           "Processing frames..." :: results.filterMap (·.2.2)⟩

/-- Effect of one pool task on its own frame file: composited on success,
unchanged when the task raises (the exception is caught at the fan-in). -/
def applySingle (whiteImg blackImg : ImageRGB) (d : FrameData) : FrameData :=
  match process_single_frame whiteImg blackImg d with
  | .ok d' => d'
  | .error _ => d

/-- Frame files after the pool tasks complete in the given order; task i reads
and rewrites file i only. -/
def runOrder (g : α → α) (s : List α) (order : List Nat) : List α :=
  order.foldl (fun st i =>
    match st[i]? with
    | some a => st.set i (g a)
    | none => st) s

/-- Destination of a subprocess's stdout/stderr. -/
inductive StreamDest where
  | inherit
  | devnull
  | piped
deriving DecidableEq

/-- One subprocess.run invocation: argv and the options ffmpeg.py passes. -/
structure SubprocessCall where
  argv : List String
  check : Bool
  captureOutput : Bool
  stdoutDest : StreamDest
  stderrDest : StreamDest
deriving DecidableEq

/-- The Python exceptions extract_video can let escape. -/
inductive PyError where
  | zeroDivision
  | calledProcess (argv : List String)
deriving DecidableEq

/-- Outcome of the ffprobe invocation: the stdout text of a successful run, or
either of the caught launch failures (CalledProcessError, FileNotFoundError). -/
inductive ProbeResult where
  | ok (stdout : List Char)
  | fail
deriving DecidableEq

/-- External-world behaviour one extract_video run encounters: the probe's
outcome and whether the decode and audio ffmpeg invocations exit successfully. -/
structure ExtractEnv where
  probe : ProbeResult
  decodeOk : Bool
  audioOk : Bool
deriving DecidableEq

/-- os.path.join('ffmpeg', 'bin', 'ffmpeg.exe'), with '/' for the separator. -/
def FFMPEG_PATH : String := "ffmpeg/bin/ffmpeg.exe"

/-- os.path.join('ffmpeg', 'bin', 'ffprobe.exe'), with '/' for the separator. -/
def FFPROBE_PATH : String := "ffmpeg/bin/ffprobe.exe"

/-- The ffprobe frame-rate query: fields are argv, check=True,
capture_output=True, and both streams piped (captured). -/
def probeCommand (input_video : String) : SubprocessCall :=
  ⟨[FFPROBE_PATH, "-v", "error", "-select_streams", "v:0", "-show_entries",
    "stream=r_frame_rate", "-of", "default=noprint_wrappers=1:nokey=1", input_video],
   true, true, .piped, .piped⟩

/-- The frame-decode ffmpeg call: check=True, streams inherited. -/
def decodeCommand (input_video output_folder : String) (rate : Int) : SubprocessCall :=
  ⟨[FFMPEG_PATH, "-i", input_video, "-r", toString rate, "-vf", "format=gray",
    output_folder ++ "/frame_%05d.png"],
   true, false, .inherit, .inherit⟩

/-- The audio-extraction ffmpeg call: check=False, stdout and stderr DEVNULL. -/
def audioCommand (input_video output_folder : String) : SubprocessCall :=
  ⟨[FFMPEG_PATH, "-i", input_video, "-vn", "-c:a", "aac", "-b:a", "192k", "-y",
    output_folder ++ "/audio.aac"],
   false, false, .devnull, .devnull⟩

/-- str.strip(): drop whitespace from both ends. -/
def stripChars (cs : List Char) : List Char :=
  ((cs.dropWhile Char.isWhitespace).reverse.dropWhile Char.isWhitespace).reverse

/-- str.split('/'): split on every slash, keeping empty parts. -/
def splitSlash : List Char → List (List Char)
  | [] => [[]]
  | c :: rest =>
    if c = '/' then [] :: splitSlash rest
    else
      match splitSlash rest with
      | [] => [[c]]
      | p :: ps => (c :: p) :: ps

/-- Value of a string of decimal digits. -/
def digitsToNat (cs : List Char) : Nat :=
  cs.foldl (fun acc c => acc * 10 + (c.toNat - 48)) 0

/-- int(s) on a decimal literal: optional surrounding whitespace, an optional
sign, then at least one digit; none is the ValueError path. -/
def pyInt (cs : List Char) : Option Int :=
  match stripChars cs with
  | [] => none
  | '+' :: rest =>
    if !rest.isEmpty && rest.all Char.isDigit then some (Int.ofNat (digitsToNat rest)) else none
  | '-' :: rest =>
    if !rest.isEmpty && rest.all Char.isDigit then some (-(Int.ofNat (digitsToNat rest))) else none
  | l =>
    if l.all Char.isDigit then some (Int.ofNat (digitsToNat l)) else none

/-- num, den = map(int, stdout.strip().split('/')): some (num, den) iff the
stripped stdout splits into exactly two parts and both parse as integers;
none is the caught ValueError (wrong part count or a non-integer part). -/
def parseFraction (stdout : List Char) : Option (Int × Int) :=
  match (splitSlash (stripChars stdout)).map pyInt with
  | [some n, some d] => some (n, d)
  | _ => none

/-- Python round(num/den) for den ≠ 0: round half to even on the exact
rational quotient (binary-float representation error of num/den lies outside
the model). -/
def pyRound (num den : Int) : Int :=
  let n := if den < 0 then -num else num
  let d := if den < 0 then -den else den
  let q := n / d
  let r := n - d * q
  if 2 * r < d then q
  else if d < 2 * r then q + 1
  else if q % 2 = 0 then q else q + 1

/-- The frame-rate detection block of extract_video (ffmpeg.py lines 21-36):
skipped entirely when the requested rate is positive; otherwise probes, parses
and rounds, falling back to 30 on the caught exceptions (probe launch failure
or parse ValueError). A parsed fraction with zero denominator raises
ZeroDivisionError, which the except clause does not catch. Returns the rate
and the subprocess calls attempted. -/
def detectRate (frame_rate : Int) (probe : ProbeResult) (probeCall : SubprocessCall) :
    Except PyError (Int × List SubprocessCall) :=
  if frame_rate ≤ 0 then
    match probe with
    | .fail => .ok (30, [probeCall])
    | .ok out =>
      match parseFraction out with
      | none => .ok (30, [probeCall])
      | some nd =>
        if nd.2 = 0 then .error .zeroDivision
        else .ok (pyRound nd.1 nd.2, [probeCall])
  else .ok (frame_rate, [])

/-- subprocess.run of the given call: raises CalledProcessError only when
check is set and the process exits unsuccessfully. -/
def runCall (c : SubprocessCall) (exitOk : Bool) : Except PyError Unit :=
  if c.check && !exitOk then .error (.calledProcess c.argv) else .ok ()

/-- ffmpeg.extract_video: frame-rate detection, mandatory frame decode
(check=True), best-effort audio extraction (check=False, output discarded);
returns the frame rate used together with the subprocess calls made. -/
def extract_video (input_video output_folder : String) (frame_rate : Int)
    (env : ExtractEnv) : Except PyError (Int × List SubprocessCall) :=
  match detectRate frame_rate env.probe (probeCommand input_video) with
  | .error e => .error e
  | .ok rd =>
    match runCall (decodeCommand input_video output_folder rd.1) env.decodeOk with
    | .error e => .error e
    | .ok _ =>
      match runCall (audioCommand input_video output_folder) env.audioOk with
      | .error e => .error e
      | .ok _ =>
        .ok (rd.1, rd.2 ++ [decodeCommand input_video output_folder rd.1,
                            audioCommand input_video output_folder])

/-- Code points of the extractor's frame file name frame_%05d.png for an index
i ≤ 99999: "frame_" (102 114 97 109 101 95), five zero-padded decimal digits,
".png" (46 112 110 103). -/
def frameNameChars (i : Nat) : List Nat :=
  [102, 114, 97, 109, 101, 95,
   48 + i / 10000 % 10, 48 + i / 1000 % 10, 48 + i / 100 % 10, 48 + i / 10 % 10, 48 + i % 10,
   46, 112, 110, 103]

/-- Python string <, lexicographic on code points — the order sorted() uses on
the globbed file names. -/
def ltLex : List Nat → List Nat → Bool
  | _, [] => false
  | [], _ :: _ => true
  | a :: as, b :: bs => if a < b then true else if a = b then ltLex as bs else false

/-- Every row of the raster has width w (PIL rasters are rectangular). -/
def rectW (img : List (List α)) (w : Nat) : Prop :=
  ∀ row ∈ img, row.length = w

/-- All channels of the pixel are 8-bit values. -/
def validRGB (p : RGB) : Prop :=
  p.r ≤ 255 ∧ p.g ≤ 255 ∧ p.b ≤ 255

/-- All pixels of the raster are 8-bit RGB values. -/
def validImage (img : ImageRGB) : Prop :=
  ∀ row ∈ img, ∀ p ∈ row, validRGB p

/-- Every mask value of the raster equals v. -/
def maskAll (v : Nat) (m : ImageL) : Prop :=
  ∀ row ∈ m, ∀ x ∈ row, x = v

instance (img : List (List α)) (w : Nat) : Decidable (rectW img w) :=
  inferInstanceAs (Decidable (∀ row ∈ img, row.length = w))

instance (p : RGB) : Decidable (validRGB p) :=
  inferInstanceAs (Decidable (p.r ≤ 255 ∧ p.g ≤ 255 ∧ p.b ≤ 255))

instance (img : ImageRGB) : Decidable (validImage img) :=
  inferInstanceAs (Decidable (∀ row ∈ img, ∀ p ∈ row, validRGB p))

instance (v : Nat) (m : ImageL) : Decidable (maskAll v m) :=
  inferInstanceAs (Decidable (∀ row ∈ m, ∀ x ∈ row, x = v))

/-! Arithmetic of the PIL blend. -/

theorem muldiv255_div255 (p : Nat) (hp : p ≤ 65025) :
    ((p + 128) / 256 + (p + 128)) / 256 = (p + 127) / 255 := by
  omega

theorem muldiv255_eq (a b : Nat) (ha : a ≤ 255) (hb : b ≤ 255) :
    muldiv255 a b = (a * b + 127) / 255 := by
  have h : a * b ≤ 65025 := by
    have := Nat.mul_le_mul ha hb
    omega
  unfold muldiv255
  exact muldiv255_div255 (a * b) h

theorem blend_eq (m bp wp : Nat) (hm : m ≤ 255) (hb : bp ≤ 255) (hw : wp ≤ 255) :
    blend m bp wp = (bp * (255 - m) + 127) / 255 + (wp * m + 127) / 255 := by
  unfold blend
  rw [muldiv255_eq bp (255 - m) hb (by omega), muldiv255_eq wp m hw hm]

theorem blend_zero (bp wp : Nat) (hb : bp ≤ 255) : blend 0 bp wp = bp := by
  unfold blend muldiv255
  omega

theorem blend_max (bp wp : Nat) (hw : wp ≤ 255) : blend 255 bp wp = wp := by
  unfold blend muldiv255
  omega

theorem blend_linear_bounds (m bp wp : Nat) (hm : m ≤ 255) (hb : bp ≤ 255) (hw : wp ≤ 255) :
    bp * (255 - m) + wp * m ≤ 255 * blend m bp wp + 254 ∧
    255 * blend m bp wp ≤ bp * (255 - m) + wp * m + 254 := by
  rw [blend_eq m bp wp hm hb hw]
  generalize bp * (255 - m) = x1
  generalize wp * m = x2
  omega

theorem blendRGB_zero (bp wp : RGB) (hb : validRGB bp) : blendRGB 0 bp wp = bp := by
  obtain ⟨br, bg, bb⟩ := bp
  simp only [blendRGB, RGB.mk.injEq]
  exact ⟨blend_zero _ _ hb.1, blend_zero _ _ hb.2.1, blend_zero _ _ hb.2.2⟩

theorem blendRGB_max (bp wp : RGB) (hw : validRGB wp) : blendRGB 255 bp wp = wp := by
  obtain ⟨wr, wg, wb⟩ := wp
  simp only [blendRGB, RGB.mk.injEq]
  exact ⟨blend_max _ _ hw.1, blend_max _ _ hw.2.1, blend_max _ _ hw.2.2⟩

/-! Pointwise collapses of zipWith3. -/

theorem zipWith3_eq_fst (f : α → β → γ → α) (as : List α) (bs : List β) (cs : List γ)
    (h1 : bs.length = as.length) (h2 : cs.length = as.length)
    (hf : ∀ a ∈ as, ∀ b ∈ bs, ∀ c ∈ cs, f a b c = a) :
    zipWith3 f as bs cs = as := by
  induction as generalizing bs cs with
  | nil =>
    cases bs with
    | nil =>
      cases cs with
      | nil => rfl
      | cons c cs => simp at h2
    | cons b bs => simp at h1
  | cons a as ih =>
    cases bs with
    | nil => simp at h1
    | cons b bs =>
      cases cs with
      | nil => simp at h2
      | cons c cs =>
        simp only [zipWith3, List.cons.injEq]
        refine ⟨hf a (by simp) b (by simp) c (by simp),
          ih bs cs (by simpa using h1) (by simpa using h2) ?_⟩
        intro a' ha' b' hb' c' hc'
        exact hf a' (List.mem_cons_of_mem _ ha') b' (List.mem_cons_of_mem _ hb')
          c' (List.mem_cons_of_mem _ hc')

theorem zipWith3_eq_snd (f : α → β → γ → β) (as : List α) (bs : List β) (cs : List γ)
    (h1 : as.length = bs.length) (h2 : cs.length = bs.length)
    (hf : ∀ a ∈ as, ∀ b ∈ bs, ∀ c ∈ cs, f a b c = b) :
    zipWith3 f as bs cs = bs := by
  induction bs generalizing as cs with
  | nil =>
    cases as with
    | nil =>
      cases cs with
      | nil => rfl
      | cons c cs => simp at h2
    | cons a as => simp at h1
  | cons b bs ih =>
    cases as with
    | nil => simp at h1
    | cons a as =>
      cases cs with
      | nil => simp at h2
      | cons c cs =>
        simp only [zipWith3, List.cons.injEq]
        refine ⟨hf a (by simp) b (by simp) c (by simp),
          ih as cs (by simpa using h1) (by simpa using h2) ?_⟩
        intro a' ha' b' hb' c' hc'
        exact hf a' (List.mem_cons_of_mem _ ha') b' (List.mem_cons_of_mem _ hb')
          c' (List.mem_cons_of_mem _ hc')

/-- C1: the per-frame composite is the per-pixel linear blend of the white
overlay W (image1) over the black overlay B (image2) weighted by the mask:
each channel equals the sum of the rounded products b*(255-m)/255 and
w*m/255, so it lies within one 8-bit quantum (254/255) of the exact linear
interpolation; mask 0 selects the B channel exactly and mask 255 the W
channel; at image level an all-zero mask composites to B pixel-for-pixel and
an all-255 mask to W. -/
theorem composite_is_linear_blend :
    (∀ m bp wp : Nat, m ≤ 255 → bp ≤ 255 → wp ≤ 255 →
      blend m bp wp = (bp * (255 - m) + 127) / 255 + (wp * m + 127) / 255 ∧
      bp * (255 - m) + wp * m ≤ 255 * blend m bp wp + 254 ∧
      255 * blend m bp wp ≤ bp * (255 - m) + wp * m + 254 ∧
      blend 0 bp wp = bp ∧
      blend 255 bp wp = wp) ∧
    (∀ (W B : ImageRGB) (mask : ImageL) (w : Nat),
      mask.length = B.length → mask.length = W.length →
      rectW B w → rectW W w → rectW mask w →
      validImage B → validImage W →
      (maskAll 0 mask → composite W B mask = B) ∧
      (maskAll 255 mask → composite W B mask = W)) := by
  constructor
  · intro m bp wp hm hb hw
    exact ⟨blend_eq m bp wp hm hb hw, (blend_linear_bounds m bp wp hm hb hw).1,
      (blend_linear_bounds m bp wp hm hb hw).2, blend_zero bp wp hb, blend_max bp wp hw⟩
  · intro W B mask w hlB hlW hrB hrW hrM hvB hvW
    constructor
    · intro hm0
      unfold composite
      apply zipWith3_eq_snd
      · omega
      · omega
      · intro row1 h1 row2 h2 rowM hM
        apply zipWith3_eq_snd
        · rw [hrW row1 h1, hrB row2 h2]
        · rw [hrM rowM hM, hrB row2 h2]
        · intro p1 hp1 p2 hp2 x hx
          rw [hm0 rowM hM x hx]
          exact blendRGB_zero p2 p1 (hvB row2 h2 p2 hp2)
    · intro hm255
      unfold composite
      apply zipWith3_eq_fst
      · omega
      · omega
      · intro row1 h1 row2 h2 rowM hM
        apply zipWith3_eq_fst
        · rw [hrW row1 h1, hrB row2 h2]
        · rw [hrM rowM hM, hrW row1 h1]
        · intro p1 hp1 p2 hp2 x hx
          rw [hm255 rowM hM x hx]
          exact blendRGB_max p2 p1 (hvW row1 h1 p1 hp1)

theorem composite_is_linear_blend_witness :
    blend 0 7 250 = 7 ∧ blend 255 7 250 = 250 ∧
    composite [[⟨9, 8, 7⟩]] [[⟨1, 2, 3⟩]] [[0]] = [[⟨1, 2, 3⟩]] ∧
    composite [[⟨9, 8, 7⟩]] [[⟨1, 2, 3⟩]] [[255]] = [[⟨9, 8, 7⟩]] :=
  ⟨(composite_is_linear_blend.1 0 7 250 (by decide) (by decide) (by decide)).2.2.2.1,
   (composite_is_linear_blend.1 255 7 250 (by decide) (by decide) (by decide)).2.2.2.2,
   (composite_is_linear_blend.2 [[⟨9, 8, 7⟩]] [[⟨1, 2, 3⟩]] [[0]] 1 rfl rfl
      (by decide) (by decide) (by decide) (by decide) (by decide)).1 (by decide),
   (composite_is_linear_blend.2 [[⟨9, 8, 7⟩]] [[⟨1, 2, 3⟩]] [[255]] 1 rfl rfl
      (by decide) (by decide) (by decide) (by decide) (by decide)).2 (by decide)⟩

/-- C6: frame file names frame_%05d.png order lexicographically (Python string
<, code-point order) exactly as their 1-based indices order, for all indices
the 5-digit zero-padded pattern covers; sorted(...) therefore lists the frames
in ascending sequential-index order. -/
theorem frame_names_sort_by_index (i j : Nat) (h1 : 1 ≤ i) (h2 : i < j) (h3 : j ≤ 99999) :
    ltLex (frameNameChars i) (frameNameChars j) = true := by
  have bi1 : i / 1000 / 10 = i / 10000 := by norm_num [Nat.div_div_eq_div_mul]
  have bi2 : i / 100 / 10 = i / 1000 := by norm_num [Nat.div_div_eq_div_mul]
  have bi3 : i / 10 / 10 = i / 100 := by norm_num [Nat.div_div_eq_div_mul]
  have bj1 : j / 1000 / 10 = j / 10000 := by norm_num [Nat.div_div_eq_div_mul]
  have bj2 : j / 100 / 10 = j / 1000 := by norm_num [Nat.div_div_eq_div_mul]
  have bj3 : j / 10 / 10 = j / 100 := by norm_num [Nat.div_div_eq_div_mul]
  simp only [frameNameChars, ltLex]
  norm_num
  rcases Nat.lt_trichotomy (i / 10000) (j / 10000) with h4 | h4 | h4
  · exact Or.inl (by omega)
  · rcases Nat.lt_trichotomy (i / 1000) (j / 1000) with h3' | h3' | h3'
    · exact Or.inr ⟨by omega, Or.inl (by omega)⟩
    · rcases Nat.lt_trichotomy (i / 100) (j / 100) with h2' | h2' | h2'
      · exact Or.inr ⟨by omega, Or.inr ⟨by omega, Or.inl (by omega)⟩⟩
      · rcases Nat.lt_trichotomy (i / 10) (j / 10) with h1' | h1' | h1'
        · exact Or.inr ⟨by omega, Or.inr ⟨by omega, Or.inr ⟨by omega, Or.inl (by omega)⟩⟩⟩
        · exact Or.inr ⟨by omega, Or.inr ⟨by omega, Or.inr ⟨by omega, Or.inr ⟨by omega, by omega⟩⟩⟩⟩
        · exfalso; omega
      · exfalso; omega
    · exfalso; omega
  · exfalso; omega

theorem frame_names_sort_by_index_witness :
    ltLex (frameNameChars 1) (frameNameChars 2) = true :=
  frame_names_sort_by_index 1 2 (by decide) (by decide) (by decide)

/-- C7: on a directory listing with zero frame files, process_frames returns
normally (no exception value), records no file writes, and emits exactly the
single diagnostic message. -/
theorem process_frames_empty_noop (resize : ImageRGB → Nat → Nat → ImageRGB)
    (blackImg whiteImg : ImageRGB) :
    process_frames resize blackImg whiteImg [] =
      Except.ok ⟨[], [], ["No frames found to process."]⟩ := rfl

/-! Behaviour of the subprocess steps of extract_video. -/

theorem runCall_audio (iv ofo : String) (ok : Bool) :
    runCall (audioCommand iv ofo) ok = Except.ok () := by
  cases ok <;> rfl

theorem runCall_decode_true (iv ofo : String) (rate : Int) :
    runCall (decodeCommand iv ofo rate) true = Except.ok () := rfl

theorem runCall_decode_false (iv ofo : String) (rate : Int) :
    runCall (decodeCommand iv ofo rate) false =
      Except.error (.calledProcess (decodeCommand iv ofo rate).argv) := rfl

theorem extract_video_of_detect (iv ofo : String) (fr : Int) (env : ExtractEnv)
    (rate : Int) (dcalls : List SubprocessCall)
    (hdet : detectRate fr env.probe (probeCommand iv) = Except.ok (rate, dcalls))
    (hdec : env.decodeOk = true) :
    extract_video iv ofo fr env =
      Except.ok (rate, dcalls ++ [decodeCommand iv ofo rate, audioCommand iv ofo]) := by
  unfold extract_video
  rw [hdet, hdec]
  simp [runCall_decode_true, runCall_audio]

theorem extract_video_ok_inv (iv ofo : String) (fr : Int) (env : ExtractEnv)
    (r : Int) (calls : List SubprocessCall)
    (hok : extract_video iv ofo fr env = Except.ok (r, calls)) :
    ∃ dcalls, detectRate fr env.probe (probeCommand iv) = Except.ok (r, dcalls) ∧
      env.decodeOk = true ∧
      calls = dcalls ++ [decodeCommand iv ofo r, audioCommand iv ofo] := by
  unfold extract_video at hok
  cases hdet : detectRate fr env.probe (probeCommand iv) with
  | error e => rw [hdet] at hok; exact absurd hok (by simp)
  | ok rd =>
    rw [hdet] at hok
    obtain ⟨rate, dcalls⟩ := rd
    cases hdec : env.decodeOk with
    | false =>
      rw [hdec] at hok
      simp [runCall, decodeCommand] at hok
    | true =>
      rw [hdec] at hok
      simp [runCall_decode_true, runCall_audio] at hok
      obtain ⟨h1, h2⟩ := hok
      subst h1
      exact ⟨dcalls, rfl, rfl, h2.symm⟩

theorem pyRound_pos (num den : Int) (hd : 0 < den) (hn : den < 2 * num) :
    0 < pyRound num den := by
  have hne : den ≠ 0 := by omega
  have hmod : 0 ≤ num % den := Int.emod_nonneg num hne
  have hlt : num % den < den := Int.emod_lt_of_pos num hd
  have hdiv : den * (num / den) + num % den = num := Int.ediv_add_emod num den
  have hq : 0 ≤ num / den := Int.ediv_nonneg (by omega) (by omega)
  simp only [pyRound, if_neg (show ¬ den < 0 by omega)]
  have hr : num - den * (num / den) = num % den := by linarith [hdiv]
  rw [hr]
  split_ifs with h1 h2 h3
  · rcases lt_or_eq_of_le hq with h | h
    · exact h
    · exfalso
      have hz : den * (num / den) = 0 := by rw [← h, mul_zero]
      linarith [hdiv]
  · linarith [hq]
  · rcases lt_or_eq_of_le hq with h | h
    · exact h
    · exfalso
      have hz : den * (num / den) = 0 := by rw [← h, mul_zero]
      linarith [hdiv]
  · linarith [hq]

theorem detectRate_pos (fr : Int) (probe : ProbeResult) (pc : SubprocessCall)
    (hfr : 0 < fr) : detectRate fr probe pc = Except.ok (fr, []) := by
  unfold detectRate
  rw [if_neg (by omega : ¬ fr ≤ 0)]

theorem detectRate_fail (fr : Int) (pc : SubprocessCall) (hfr : fr ≤ 0) :
    detectRate fr ProbeResult.fail pc = Except.ok (30, [pc]) := by
  unfold detectRate
  rw [if_pos hfr]

theorem detectRate_none (fr : Int) (out : List Char) (pc : SubprocessCall)
    (hfr : fr ≤ 0) (hparse : parseFraction out = none) :
    detectRate fr (ProbeResult.ok out) pc = Except.ok (30, [pc]) := by
  unfold detectRate
  rw [if_pos hfr]
  simp [hparse]

theorem detectRate_parsed (fr : Int) (out : List Char) (pc : SubprocessCall)
    (n d : Int) (hfr : fr ≤ 0) (hparse : parseFraction out = some (n, d)) (hd : d ≠ 0) :
    detectRate fr (ProbeResult.ok out) pc = Except.ok (pyRound n d, [pc]) := by
  unfold detectRate
  rw [if_pos hfr]
  simp [hparse, hd]

theorem extract_video_decode_fails (iv ofo : String) (fr : Int) (env : ExtractEnv)
    (rate : Int) (dcalls : List SubprocessCall)
    (hdet : detectRate fr env.probe (probeCommand iv) = Except.ok (rate, dcalls))
    (hdec : env.decodeOk = false) :
    extract_video iv ofo fr env =
      Except.error (PyError.calledProcess (decodeCommand iv ofo rate).argv) := by
  unfold extract_video
  rw [hdet, hdec]
  simp [runCall_decode_false]

/-- C2: with requested_rate ≤ 0, a succeeding probe whose stdout parses as an
integer fraction num/den (den nonzero) makes extract_video use and return
round(num/den), Python rounding (half to even) on the exact quotient; in
particular the probed fraction 24000/1001 gives rate 24. -/
theorem extract_video_rounds_probed_rate
    (iv ofo : String) (fr : Int) (out : List Char) (n d : Int) (audioOk : Bool)
    (hfr : fr ≤ 0) (hparse : parseFraction out = some (n, d)) (hd : d ≠ 0) :
    extract_video iv ofo fr ⟨ProbeResult.ok out, true, audioOk⟩ =
      Except.ok (pyRound n d,
        [probeCommand iv, decodeCommand iv ofo (pyRound n d), audioCommand iv ofo]) ∧
    pyRound 24000 1001 = 24 := by
  refine ⟨?_, by decide⟩
  exact extract_video_of_detect iv ofo fr ⟨ProbeResult.ok out, true, audioOk⟩
    (pyRound n d) [probeCommand iv]
    (detectRate_parsed fr out (probeCommand iv) n d hfr hparse hd) rfl

theorem extract_video_rounds_probed_rate_witness :
    extract_video "v.mp4" "frames" 0
        ⟨ProbeResult.ok ['2', '4', '0', '0', '0', '/', '1', '0', '0', '1'], true, true⟩ =
      Except.ok (pyRound 24000 1001,
        [probeCommand "v.mp4", decodeCommand "v.mp4" "frames" (pyRound 24000 1001),
         audioCommand "v.mp4" "frames"]) ∧
    pyRound 24000 1001 = 24 :=
  extract_video_rounds_probed_rate "v.mp4" "frames" 0
    ['2', '4', '0', '0', '0', '/', '1', '0', '0', '1'] 24000 1001 true
    (by decide) (by decide) (by decide)

/-- C10: with requested_rate > 0 the detection block is skipped: the ffprobe
call is not among the calls performed, and the rate used and returned is the
request unchanged (decode success returning it, decode failure raising). -/
theorem requested_rate_passthrough (iv ofo : String) (fr : Int) (env : ExtractEnv)
    (hfr : 0 < fr) :
    extract_video iv ofo fr env =
      (if env.decodeOk then
        Except.ok (fr, [decodeCommand iv ofo fr, audioCommand iv ofo])
      else Except.error (PyError.calledProcess (decodeCommand iv ofo fr).argv)) ∧
    probeCommand iv ∉ [decodeCommand iv ofo fr, audioCommand iv ofo] := by
  constructor
  · have hdet := detectRate_pos fr env.probe (probeCommand iv) hfr
    cases hdec : env.decodeOk with
    | true =>
      rw [if_pos rfl]
      exact extract_video_of_detect iv ofo fr env fr [] hdet hdec
    | false =>
      rw [if_neg Bool.false_ne_true]
      exact extract_video_decode_fails iv ofo fr env fr [] hdet hdec
  · simp [probeCommand, decodeCommand, audioCommand, FFMPEG_PATH, FFPROBE_PATH]

theorem requested_rate_passthrough_witness :
    extract_video "v.mp4" "frames" 24 ⟨ProbeResult.fail, true, true⟩ =
      Except.ok (24, [decodeCommand "v.mp4" "frames" 24, audioCommand "v.mp4" "frames"]) ∧
    probeCommand "v.mp4" ∉ [decodeCommand "v.mp4" "frames" 24, audioCommand "v.mp4" "frames"] := by
  have h := requested_rate_passthrough "v.mp4" "frames" 24 ⟨ProbeResult.fail, true, true⟩
    (by decide)
  exact ⟨h.1, h.2⟩

/-- C8: the audio-extraction subprocess is invoked with check=False and both
stdout and stderr sent to DEVNULL (discarded); its exit status never changes
extract_video's result, which still completes and returns the frame rate, and
the audio call is among the calls performed on every successful run. -/
theorem audio_failure_swallowed (iv ofo : String) (fr : Int)
    (probe : ProbeResult) (dec a₁ a₂ : Bool) :
    extract_video iv ofo fr ⟨probe, dec, a₁⟩ = extract_video iv ofo fr ⟨probe, dec, a₂⟩ ∧
    (audioCommand iv ofo).check = false ∧
    (audioCommand iv ofo).stdoutDest = StreamDest.devnull ∧
    (audioCommand iv ofo).stderrDest = StreamDest.devnull ∧
    (∀ r calls, extract_video iv ofo fr ⟨probe, dec, a₁⟩ = Except.ok (r, calls) →
      audioCommand iv ofo ∈ calls) := by
  refine ⟨?_, rfl, rfl, rfl, ?_⟩
  · simp only [extract_video]
    cases hdet : detectRate fr probe (probeCommand iv) with
    | error e => rfl
    | ok rd => rw [runCall_audio, runCall_audio]
  · intro r calls hok
    obtain ⟨dcalls, _, _, hcalls⟩ := extract_video_ok_inv iv ofo fr _ r calls hok
    rw [hcalls]
    simp

theorem audio_failure_swallowed_witness :
    extract_video "v.mp4" "frames" 24 ⟨ProbeResult.fail, true, true⟩ =
      extract_video "v.mp4" "frames" 24 ⟨ProbeResult.fail, true, false⟩ ∧
    (audioCommand "v.mp4" "frames").check = false ∧
    audioCommand "v.mp4" "frames" ∈
      [decodeCommand "v.mp4" "frames" 24, audioCommand "v.mp4" "frames"] := by
  have h := audio_failure_swallowed "v.mp4" "frames" 24 ProbeResult.fail true true false
  exact ⟨h.1, h.2.1, h.2.2.2.2 24
    [decodeCommand "v.mp4" "frames" 24, audioCommand "v.mp4" "frames"] rfl⟩

/-- C4 counterexample: probe stdout "0/0" is parsed by map(int, ...) into the
integer fraction 0/0; the division num/den then raises ZeroDivisionError,
which the except clause (CalledProcessError, FileNotFoundError, ValueError)
does not catch, so extract_video raises instead of returning the default 30. -/
theorem extract_video_zero_denominator_raises :
    extract_video "v.mp4" "frames" 0 ⟨ProbeResult.ok ['0', '/', '0'], true, true⟩ =
      Except.error PyError.zeroDivision := rfl

/-- C4 amended: with requested_rate ≤ 0, failure to invoke the probe
(CalledProcessError or FileNotFoundError) and stdout that fails to parse as an
integer fraction (ValueError) are caught, and extract_video returns the fixed
default 30; however stdout that parses to a fraction with zero denominator
raises an uncaught ZeroDivisionError out of the detection step. -/
theorem extract_video_defaults_to_30 (iv ofo : String) (fr : Int) (env : ExtractEnv)
    (hfr : fr ≤ 0) (hdec : env.decodeOk = true) :
    (env.probe = ProbeResult.fail →
      extract_video iv ofo fr env =
        Except.ok (30, [probeCommand iv, decodeCommand iv ofo 30, audioCommand iv ofo])) ∧
    (∀ out, env.probe = ProbeResult.ok out → parseFraction out = none →
      extract_video iv ofo fr env =
        Except.ok (30, [probeCommand iv, decodeCommand iv ofo 30, audioCommand iv ofo])) := by
  constructor
  · intro hp
    have hdet : detectRate fr env.probe (probeCommand iv) =
        Except.ok (30, [probeCommand iv]) := by
      rw [hp]
      exact detectRate_fail fr (probeCommand iv) hfr
    exact extract_video_of_detect iv ofo fr env 30 [probeCommand iv] hdet hdec
  · intro out hp hparse
    have hdet : detectRate fr env.probe (probeCommand iv) =
        Except.ok (30, [probeCommand iv]) := by
      rw [hp]
      exact detectRate_none fr out (probeCommand iv) hfr hparse
    exact extract_video_of_detect iv ofo fr env 30 [probeCommand iv] hdet hdec

theorem extract_video_defaults_to_30_witness :
    extract_video "v.mp4" "frames" 0 ⟨ProbeResult.fail, true, true⟩ =
      Except.ok (30, [probeCommand "v.mp4", decodeCommand "v.mp4" "frames" 30,
                      audioCommand "v.mp4" "frames"]) :=
  (extract_video_defaults_to_30 "v.mp4" "frames" 0 ⟨ProbeResult.fail, true, true⟩
    (by decide) rfl).1 rfl

/-- C5 counterexample: probed fraction 0/1 rounds to 0, so the rate
extract_video uses for decoding and returns is 0, which is not positive. -/
theorem extract_video_rate_not_positive :
    extract_video "v.mp4" "frames" 0 ⟨ProbeResult.ok ['0', '/', '1'], true, true⟩ =
      Except.ok (0, [probeCommand "v.mp4", decodeCommand "v.mp4" "frames" 0,
                     audioCommand "v.mp4" "frames"]) ∧
    ¬ (0 : Int) > 0 := ⟨rfl, by decide⟩

/-- C5 amended: the rate extract_video returns is positive when the request is
positive, when detection falls back to the default 30 (probe failure or
unparseable output), and when it is derived from a probed fraction num/den
with 0 < den < 2*num (every real frame rate); a degenerate parsed fraction at
or below one half — such as 0/1 — rounds to a non-positive rate. -/
theorem extract_video_rate_positive_cases (iv ofo : String) (fr : Int) (env : ExtractEnv)
    (r : Int) (calls : List SubprocessCall)
    (hok : extract_video iv ofo fr env = Except.ok (r, calls)) :
    (0 < fr → 0 < r) ∧
    (env.probe = ProbeResult.fail → 0 < r) ∧
    (∀ out, env.probe = ProbeResult.ok out → parseFraction out = none → 0 < r) ∧
    (∀ out n d, env.probe = ProbeResult.ok out → parseFraction out = some (n, d) →
      0 < d → d < 2 * n → 0 < r) := by
  obtain ⟨dcalls, hdet, hdec, hcalls⟩ := extract_video_ok_inv iv ofo fr env r calls hok
  by_cases hfr : fr ≤ 0
  · refine ⟨fun h => absurd h (by omega), ?_, ?_, ?_⟩
    · intro hp
      rw [hp, detectRate_fail fr (probeCommand iv) hfr] at hdet
      simp at hdet
      omega
    · intro out hp hparse
      rw [hp, detectRate_none fr out (probeCommand iv) hfr hparse] at hdet
      simp at hdet
      omega
    · intro out n d hp hparse hd0 hdn
      rw [hp, detectRate_parsed fr out (probeCommand iv) n d hfr hparse (by omega)] at hdet
      simp at hdet
      have := pyRound_pos n d hd0 hdn
      omega
  · rw [detectRate_pos fr env.probe (probeCommand iv) (by omega)] at hdet
    simp at hdet
    exact ⟨fun _ => by omega, fun _ => by omega, fun _ _ _ => by omega,
      fun _ _ _ _ _ _ _ => by omega⟩

theorem extract_video_rate_positive_cases_witness :
    (0 < (24 : Int) → 0 < (24 : Int)) ∧
    ((⟨ProbeResult.fail, true, true⟩ : ExtractEnv).probe = ProbeResult.fail →
      0 < (24 : Int)) ∧
    (∀ out, (⟨ProbeResult.fail, true, true⟩ : ExtractEnv).probe = ProbeResult.ok out →
      parseFraction out = none → 0 < (24 : Int)) ∧
    (∀ out n d, (⟨ProbeResult.fail, true, true⟩ : ExtractEnv).probe = ProbeResult.ok out →
      parseFraction out = some (n, d) → 0 < d → d < 2 * n → 0 < (24 : Int)) :=
  extract_video_rate_positive_cases "v.mp4" "frames" 24 ⟨ProbeResult.fail, true, true⟩ 24
    [decodeCommand "v.mp4" "frames" 24, audioCommand "v.mp4" "frames"] rfl

/-! Order independence of the parallel per-frame writes. -/

theorem runOrder_cons (g : α → α) (s : List α) (i : Nat) (order : List Nat) :
    runOrder g s (i :: order) =
      runOrder g (match s[i]? with | some a => s.set i (g a) | none => s) order := rfl

theorem runOrder_getElem? (g : α → α) :
    ∀ (order : List Nat) (s : List α), order.Nodup → (∀ i ∈ order, i < s.length) →
      ∀ k, (runOrder g s order)[k]? = if k ∈ order then Option.map g s[k]? else s[k]?
  | [], s, _, _, k => by simp [runOrder]
  | i :: rest, s, hnd, hlt, k => by
    have hi : i < s.length := hlt i (List.mem_cons_self i rest)
    have hnotm : i ∉ rest := (List.nodup_cons.mp hnd).1
    have hndr : rest.Nodup := (List.nodup_cons.mp hnd).2
    have hsome : s[i]? = some s[i] := List.getElem?_eq_getElem hi
    have hstep : (match s[i]? with | some a => s.set i (g a) | none => s) =
        s.set i (g s[i]) := by rw [hsome]
    have hlt' : ∀ j ∈ rest, j < (s.set i (g s[i])).length := by
      intro j hj
      rw [List.length_set]
      exact hlt j (List.mem_cons_of_mem _ hj)
    rw [runOrder_cons, hstep, runOrder_getElem? g rest (s.set i (g s[i])) hndr hlt' k]
    by_cases hk : k = i
    · subst hk
      rw [if_neg hnotm, if_pos (List.mem_cons_self k rest), List.getElem?_set]
      simp [hi, hsome]
    · have hset : (s.set i (g s[i]))[k]? = s[k]? := by
        rw [List.getElem?_set, if_neg (fun hik => hk hik.symm)]
      rw [hset]
      by_cases hkr : k ∈ rest
      · rw [if_pos hkr, if_pos (List.mem_cons_of_mem _ hkr)]
      · rw [if_neg hkr, if_neg (by simp [hk, hkr])]

theorem runOrder_perm_eq_map (g : α → α) (s : List α) (order : List Nat)
    (hp : order.Perm (List.range s.length)) :
    runOrder g s order = s.map g := by
  have hnd : order.Nodup := hp.nodup_iff.mpr (List.nodup_range _)
  have hmem : ∀ k, k ∈ order ↔ k < s.length := fun k => by
    rw [hp.mem_iff, List.mem_range]
  apply List.ext_getElem?
  intro k
  rw [runOrder_getElem? g order s hnd (fun i hi => (hmem i).mp hi) k, List.getElem?_map]
  by_cases hk : k < s.length
  · rw [if_pos ((hmem k).mpr hk)]
  · have hn : s[k]? = none := List.getElem?_eq_none (by omega)
    rw [if_neg (fun hm => hk ((hmem k).mp hm)), hn]
    rfl

/-- C9: the final frame files do not depend on the order in which the pool's
per-frame tasks complete — any two completion orders (permutations of the task
indices) leave identical file contents, equal to the per-frame transform
mapped over the frames — so two runs on the same frame set and overlays
produce byte-identical outputs. -/
theorem compositor_order_independent (whiteImg blackImg : ImageRGB)
    (s : List FrameData) (o₁ o₂ : List Nat)
    (hp₁ : o₁.Perm (List.range s.length)) (hp₂ : o₂.Perm (List.range s.length)) :
    runOrder (applySingle whiteImg blackImg) s o₁ =
      runOrder (applySingle whiteImg blackImg) s o₂ ∧
    runOrder (applySingle whiteImg blackImg) s o₁ =
      s.map (applySingle whiteImg blackImg) := by
  have h1 := runOrder_perm_eq_map (applySingle whiteImg blackImg) s o₁ hp₁
  have h2 := runOrder_perm_eq_map (applySingle whiteImg blackImg) s o₂ hp₂
  exact ⟨h1.trans h2.symm, h1⟩

theorem compositor_order_independent_witness :
    runOrder (applySingle [[⟨255, 255, 255⟩]] [[⟨0, 0, 0⟩]])
        [FrameData.gray [[0]], FrameData.corrupt "x"] [1, 0] =
      runOrder (applySingle [[⟨255, 255, 255⟩]] [[⟨0, 0, 0⟩]])
        [FrameData.gray [[0]], FrameData.corrupt "x"] [0, 1] ∧
    runOrder (applySingle [[⟨255, 255, 255⟩]] [[⟨0, 0, 0⟩]])
        [FrameData.gray [[0]], FrameData.corrupt "x"] [1, 0] =
      [FrameData.gray [[0]], FrameData.corrupt "x"].map
        (applySingle [[⟨255, 255, 255⟩]] [[⟨0, 0, 0⟩]]) :=
  compositor_order_independent [[⟨255, 255, 255⟩]] [[⟨0, 0, 0⟩]]
    [FrameData.gray [[0]], FrameData.corrupt "x"] [1, 0] [0, 1]
    (by decide) (by decide)

/-- C3: with a readable first frame, process_frames returns normally: every
per-frame task failure is caught at the fan-in and reported as its own error
message, the failing frame's file keeps its pre-composite contents, and each
other frame's outcome — position by position — is its own composite,
independent of failures elsewhere. -/
theorem process_frames_isolates_failures
    (resize : ImageRGB → Nat → Nat → ImageRGB) (blackImg whiteImg : ImageRGB)
    (p₀ : String) (d₀ : FrameData) (rest : List (String × FrameData)) (w h : Nat)
    (hsz : frameSize d₀ = Except.ok (w, h)) :
    ∃ run : CompositorRun,
      process_frames resize blackImg whiteImg ((p₀, d₀) :: rest) = Except.ok run ∧
      run.files.length = rest.length + 1 ∧
      (∀ (i : Nat) (p : String) (d : FrameData), ((p₀, d₀) :: rest)[i]? = some (p, d) →
        (∀ e, process_single_frame (resize whiteImg w h) (resize blackImg w h) d =
            Except.error e →
          run.files[i]? = some (p, d) ∧
          ("Error processing a frame: " ++ e) ∈ run.messages) ∧
        (∀ d', process_single_frame (resize whiteImg w h) (resize blackImg w h) d =
            Except.ok d' →
          run.files[i]? = some (p, d') ∧ p ∈ run.writes)) := by
  simp only [process_frames]
  rw [hsz]
  refine ⟨_, rfl, ?_, ?_⟩
  · simp
  · intro i p d hget
    constructor
    · intro e he
      constructor
      · rw [List.getElem?_map, List.getElem?_map, hget]
        simp [he]
      · refine List.mem_cons_of_mem _ ?_
        rw [List.mem_filterMap]
        refine ⟨_, List.mem_map_of_mem _ (List.getElem?_mem hget), ?_⟩
        simp [he]
    · intro d' hd'
      constructor
      · rw [List.getElem?_map, List.getElem?_map, hget]
        simp [hd']
      · rw [List.mem_filterMap]
        refine ⟨_, List.mem_map_of_mem _ (List.getElem?_mem hget), ?_⟩
        simp [hd']

theorem process_frames_isolates_failures_witness :
    ∃ run : CompositorRun,
      process_frames (fun img _ _ => img) [[⟨0, 0, 0⟩]] [[⟨255, 255, 255⟩]]
        [("frame_00001.png", FrameData.gray [[128]]),
         ("frame_00002.png", FrameData.corrupt "bad")] = Except.ok run :=
  Exists.imp (fun _ hr => hr.1)
    (process_frames_isolates_failures (fun img _ _ => img) [[⟨0, 0, 0⟩]]
      [[⟨255, 255, 255⟩]] "frame_00001.png" (FrameData.gray [[128]])
      [("frame_00002.png", FrameData.corrupt "bad")] 1 1 rfl)
